import Mathlib

/-!
Shallow embedding of the Blackstar CMS javascript client (src/blackstar.js):
the request-kind classifier (`Client.prototype.requestKind`), the URL builder
(`Client.prototype.requestToUrl`), the collection enrichment
(`Client.prototype.enrichCollectionWithByMethods`), the `Client` constructor
and its helper `endsWithForwardSlash`, together with theorems settling the
frozen claims about them.
-/

deriving instance DecidableEq for Except

namespace Blackstar

/-- A javascript primitive value as it occurs in chunk fields and lookup
arguments.  The js strict-equality test `===` on numbers and strings is exactly
decidable equality on this type: values of different runtime types are never
strictly equal. -/
inductive JSValue where
  | num : Int → JSValue
  | str : String → JSValue
deriving DecidableEq, Repr

/-- Value of a nonempty all-digit character list read as a decimal number;
`none` on the empty list or on a non-digit. -/
def decimalValue? (ds : List Char) : Option Nat :=
  if ds.isEmpty then none
  else ds.foldl
    (fun acc c => acc.bind (fun n => if c.isDigit then some (10 * n + (c.toNat - 48)) else none))
    (some 0)

/-- The integer a string converts to under the js `Number` conversion,
restricted to optionally-signed decimal integer strings. -/
def strToIntModel (s : String) : Option Int :=
  match s.data with
  | '-' :: ds => (decimalValue? ds).map (fun n => -(n : Int))
  | ds => (decimalValue? ds).map (fun n => (n : Int))

/-- Model of the js loose-equality test `==` restricted to numbers and
signed-decimal strings: a string is loosely equal to a number when it
converts to that number.  Used only to state that the lookups do NOT coerce,
by exhibiting a chunk that is loosely equal but not found. -/
def looseEq : JSValue → JSValue → Bool
  | JSValue.num a, JSValue.num b => a == b
  | JSValue.str a, JSValue.str b => a == b
  | JSValue.num a, JSValue.str s => strToIntModel s == some a
  | JSValue.str s, JSValue.num a => strToIntModel s == some a

/-- A content chunk record as fetched from the server: an id, a name, a list
of tags and an opaque content payload (`value` in the test fixtures). -/
structure Chunk where
  id : JSValue
  name : JSValue
  tags : List JSValue
  value : JSValue
deriving DecidableEq, Repr

/-- A query object passed to `get` / `requestKind` / `requestToUrl`.  `keys`
is the list returned by `Object.keys(request)` — it may contain unrecognized
keys.  The three value fields hold the arrays stored at the recognized keys
and are meaningful when the matching key occurs in `keys` (a js object always
carries a value for each of its keys). -/
structure Request where
  keys : List String
  ids : List Int
  names : List String
  tags : List String
deriving DecidableEq, Repr

/-- From `Client.prototype.requestKind`, inner helper `isRequestKind`: the
js presence test `Object.keys(request).some(item === kind)` — true exactly
when `kind` occurs among the keys of the query object. -/
def isRequestKind (r : Request) (kind : String) : Bool :=
  r.keys.any (fun item => item == kind)

/-- The message of the error thrown by `requestKind` for an ambiguous or
empty query. -/
def ambiguousMessage : String :=
  "A request must include exactly one of the following collections: ids, names, tags"

/-- From `Client.prototype.requestKind` (src/blackstar.js lines 168-188):
returns the kind string when exactly one of the recognized keys is present,
otherwise throws.  A thrown js error is modelled as `Except.error` carrying
the message. -/
def requestKind (r : Request) : Except String String :=
  if isRequestKind r "ids" && !(isRequestKind r "names") && !(isRequestKind r "tags") then
    Except.ok "ids"
  else if !(isRequestKind r "ids") && isRequestKind r "names" && !(isRequestKind r "tags") then
    Except.ok "names"
  else if !(isRequestKind r "ids") && !(isRequestKind r "names") && isRequestKind r "tags" then
    Except.ok "tags"
  else
    Except.error ambiguousMessage

/-- A line terminator character for the js regexp dot (which does not match
newline, carriage return, line separator or paragraph separator). -/
def isLineTerminator (c : Char) : Bool :=
  c == '\n' || c == '\r' || c == Char.ofNat 0x2028 || c == Char.ofNat 0x2029

/-- From `endsWithForwardSlash` (src/blackstar.js lines 269-271): the
unanchored regexp test of `.+\/$`, which matches exactly when the string ends
in a forward slash preceded by at least one non-line-terminator character. -/
def endsWithForwardSlash (input : String) : Bool :=
  match input.data.reverse with
  | c0 :: c1 :: _ => c0 == '/' && !(isLineTerminator c1)
  | _ => false

/-- The state of a `Client` relevant to URL building: the two URL fields set
by the constructor. -/
structure Client where
  serverUrl : String
  apiUrl : String
deriving DecidableEq, Repr

/-- From the `Client` constructor (src/blackstar.js lines 22-32): appends a
slash to the url unless `endsWithForwardSlash` accepts it, then derives the
api url. -/
def Client.make (url : String) : Client :=
  let serverUrl := url ++ (if endsWithForwardSlash url then "" else "/")
  { serverUrl := serverUrl, apiUrl := serverUrl ++ "api/content/" }

/-- From `Client.prototype.requestToUrl` (src/blackstar.js lines 156-167):
switches on `requestKind`, whose thrown error propagates out of the switch
scrutinee; each branch appends the mode segment and the array joined with a
slash (js `Array.prototype.join` renders a number in decimal).  The `default`
branch of the js switch is kept verbatim. -/
def Client.requestToUrl (c : Client) (r : Request) : Except String String :=
  match requestKind r with
  | Except.error e => Except.error e
  | Except.ok kind =>
    if kind == "ids" then
      Except.ok (c.apiUrl ++ "byids/" ++ String.intercalate "/" (r.ids.map toString))
    else if kind == "names" then
      Except.ok (c.apiUrl ++ "bynames/" ++ String.intercalate "/" r.names)
    else if kind == "tags" then
      Except.ok (c.apiUrl ++ "bytags/" ++ String.intercalate "/" r.tags)
    else
      Except.error ("Unknown request kind: " ++ kind)

/-- The result of enriching a chunk collection: the underlying sequence plus
the three lookup members that
`Client.prototype.enrichCollectionWithByMethods` attaches to the array. -/
structure EnrichedCollection where
  data : List Chunk
  byName : JSValue → Option Chunk
  byId : JSValue → Option Chunk
  byTag : JSValue → List Chunk

/-- From `Client.prototype.enrichCollectionWithByMethods` (src/blackstar.js
lines 150-155): `byName` and `byId` are `Array.prototype.find` with a strict
equality test on the field, `byTag` is `Array.prototype.filter` keeping the
chunks whose tags contain the argument. -/
def enrichCollectionWithByMethods (data : List Chunk) : EnrichedCollection :=
  { data := data
    byName := fun name => data.find? (fun item => item.name == name)
    byId := fun id => data.find? (fun item => item.id == id)
    byTag := fun tag => data.filter (fun item => item.tags.any (fun t => t == tag)) }

/-- A store mapping array references (addresses) to their current contents,
modelling that js arrays are mutable objects. -/
def Store : Type := Nat → List Chunk

/-- An enriched collection in the reference model: the lookup members are
closures over the array reference and read the contents from the store at
call time, exactly as the js closures in `enrichCollectionWithByMethods` read
`data` when invoked. -/
structure EnrichedRef where
  ref : Nat
  byName : Store → JSValue → Option Chunk
  byId : Store → JSValue → Option Chunk
  byTag : Store → JSValue → List Chunk

/-- Reference-model version of `enrichCollectionWithByMethods`: enrichment
records only the array reference; the store is consulted when a lookup member
is called, not at enrichment time. -/
def enrichRef (a : Nat) : EnrichedRef :=
  { ref := a
    byName := fun store name => (store a).find? (fun item => item.name == name)
    byId := fun store id => (store a).find? (fun item => item.id == id)
    byTag := fun store tag => (store a).filter (fun item => item.tags.any (fun t => t == tag)) }

/-- The observable outcome of `Client.prototype.get`: the returned value (or
the synchronously thrown classification error) together with the list of URLs
that were handed to the transport (`blackstarFetch`). -/
structure GetResult where
  result : Except String EnrichedCollection
  fetched : List String

/-- From `Client.prototype.get` (src/blackstar.js lines 76-81): builds the
URL first — a classification failure is thrown synchronously before
`blackstarFetch` is called — then fetches, decodes and enriches.  The
transport is modelled as a function from the URL to the decoded JSON array;
`fetched` records the URLs actually requested. -/
def Client.get (c : Client) (transport : String → List Chunk) (r : Request) : GetResult :=
  match c.requestToUrl r with
  | Except.error e => { result := Except.error e, fetched := [] }
  | Except.ok url =>
      { result := Except.ok (enrichCollectionWithByMethods (transport url))
        fetched := [url] }

/-- First chunk of the test fixture collection
(src/test/javascriptClientTests.js, "searching the results"). -/
def chunk6 : Chunk :=
  { id := JSValue.num 6, tags := [JSValue.str "index-page"],
    name := JSValue.str "index-heading", value := JSValue.str "This is the page heading" }

/-- Second chunk of the test fixture collection. -/
def chunk7 : Chunk :=
  { id := JSValue.num 7, tags := [JSValue.str "index-page"],
    name := JSValue.str "index-title", value := JSValue.str "This is a title" }

/-- Third chunk of the test fixture collection. -/
def chunk8 : Chunk :=
  { id := JSValue.num 8, tags := [JSValue.str "index-page"],
    name := JSValue.str "index-content", value := JSValue.str "Seebeck" }

/-- Fourth chunk of the test fixture collection. -/
def chunk9 : Chunk :=
  { id := JSValue.num 9, tags := [JSValue.str "index-page"],
    name := JSValue.str "index-footer", value := JSValue.str "This is a footer" }

/-- The four-chunk example collection used by the repository tests and the
spec scenarios. -/
def exampleChunks : List Chunk := [chunk6, chunk7, chunk8, chunk9]
/-! ## Helper lemmas -/

/-- Prepending a key different from `kd` does not change the presence test. -/
lemma isRequestKind_cons_ne (r : Request) (k kd : String) (h : ¬ k = kd) :
    isRequestKind { r with keys := k :: r.keys } kd = isRequestKind r kd := by
  have hk : (k == kd) = false := beq_eq_false_iff_ne.mpr h
  simp [isRequestKind, hk]

/-- The classifier returns one of the three kind strings or throws the
ambiguity error; no other outcome exists. -/
lemma requestKind_cases (r : Request) :
    requestKind r = Except.ok "ids" ∨ requestKind r = Except.ok "names" ∨
    requestKind r = Except.ok "tags" ∨ requestKind r = Except.error ambiguousMessage := by
  unfold requestKind
  split
  · exact Or.inl rfl
  split
  · exact Or.inr (Or.inl rfl)
  split
  · exact Or.inr (Or.inr (Or.inl rfl))
  · exact Or.inr (Or.inr (Or.inr rfl))

/-- Joining the empty list of segments yields the empty string. -/
lemma intercalate_nil (s : String) : String.intercalate s [] = "" := rfl

/-! ## Claim theorems -/

/-- C1: `requestKind` succeeds and returns the kind of the single recognized
key exactly when exactly one of the keys `ids`, `names`, `tags` is present in
the query, and fails (with the ambiguity error) when zero or two-or-more of
them are present; keys other than these three are ignored entirely, the
values stored under the keys are irrelevant to classification, and a
recognized key holding an empty array still counts as present, so a query
with key list `[ids]` and an empty id array classifies as ids. -/
theorem requestKind_classifies (r : Request) :
    ((∃ k, requestKind r = Except.ok k) ↔
      ((isRequestKind r "ids" = true ∧ isRequestKind r "names" = false ∧ isRequestKind r "tags" = false) ∨
       (isRequestKind r "ids" = false ∧ isRequestKind r "names" = true ∧ isRequestKind r "tags" = false) ∨
       (isRequestKind r "ids" = false ∧ isRequestKind r "names" = false ∧ isRequestKind r "tags" = true)))
    ∧ (isRequestKind r "ids" = true → isRequestKind r "names" = false → isRequestKind r "tags" = false →
        requestKind r = Except.ok "ids")
    ∧ (isRequestKind r "names" = true → isRequestKind r "ids" = false → isRequestKind r "tags" = false →
        requestKind r = Except.ok "names")
    ∧ (isRequestKind r "tags" = true → isRequestKind r "ids" = false → isRequestKind r "names" = false →
        requestKind r = Except.ok "tags")
    ∧ (¬ ((isRequestKind r "ids" = true ∧ isRequestKind r "names" = false ∧ isRequestKind r "tags" = false) ∨
          (isRequestKind r "ids" = false ∧ isRequestKind r "names" = true ∧ isRequestKind r "tags" = false) ∨
          (isRequestKind r "ids" = false ∧ isRequestKind r "names" = false ∧ isRequestKind r "tags" = true)) →
        requestKind r = Except.error ambiguousMessage)
    ∧ (∀ k, ¬ k = "ids" → ¬ k = "names" → ¬ k = "tags" →
        requestKind { r with keys := k :: r.keys } = requestKind r)
    ∧ (∀ xs ns ts, requestKind { keys := r.keys, ids := xs, names := ns, tags := ts } = requestKind r)
    ∧ requestKind { keys := ["ids"], ids := [], names := [], tags := [] } = Except.ok "ids" := by
  refine ⟨?_, ?_, ?_, ?_, ?_, ?_, ?_, ?_⟩
  · cases hI : isRequestKind r "ids" <;> cases hN : isRequestKind r "names" <;>
      cases hT : isRequestKind r "tags" <;> simp [requestKind, hI, hN, hT]
  · intro hI hN hT; simp [requestKind, hI, hN, hT]
  · intro hN hI hT; simp [requestKind, hI, hN, hT]
  · intro hT hI hN; simp [requestKind, hI, hN, hT]
  · intro h
    cases hI : isRequestKind r "ids" <;> cases hN : isRequestKind r "names" <;>
      cases hT : isRequestKind r "tags" <;> simp [hI, hN, hT] at h ⊢ <;>
      simp [requestKind, hI, hN, hT]
  · intro k h1 h2 h3
    simp only [requestKind, isRequestKind_cons_ne r k "ids" h1,
      isRequestKind_cons_ne r k "names" h2, isRequestKind_cons_ne r k "tags" h3]
  · intro xs ns ts; rfl
  · decide

/-- Witness for C1: a query with the key list `[ids, foo]` classifies as ids
— the unrecognized key `foo` is ignored. -/
theorem requestKind_classifies_witness :
    requestKind { keys := ["ids", "foo"], ids := [1], names := [], tags := [] } = Except.ok "ids" :=
  (requestKind_classifies { keys := ["ids", "foo"], ids := [1], names := [], tags := [] }).2.1
    (by decide) (by decide) (by decide)

/-- C2: for a query in which exactly one of the recognized keys is present,
`requestToUrl` returns the api URL followed by the mode segment followed by
the array elements (ids rendered in decimal) joined with a slash, in original
order with no sorting or de-duplication; on a client whose api URL is
`http://h/api/content/` the query with ids `[29, 30]` yields exactly
`http://h/api/content/byids/29/30`. -/
theorem requestToUrl_renders (c : Client) (r : Request) :
    (isRequestKind r "ids" = true → isRequestKind r "names" = false → isRequestKind r "tags" = false →
      c.requestToUrl r = Except.ok (c.apiUrl ++ "byids/" ++ String.intercalate "/" (r.ids.map toString)))
    ∧ (isRequestKind r "names" = true → isRequestKind r "ids" = false → isRequestKind r "tags" = false →
      c.requestToUrl r = Except.ok (c.apiUrl ++ "bynames/" ++ String.intercalate "/" r.names))
    ∧ (isRequestKind r "tags" = true → isRequestKind r "ids" = false → isRequestKind r "names" = false →
      c.requestToUrl r = Except.ok (c.apiUrl ++ "bytags/" ++ String.intercalate "/" r.tags))
    ∧ (Client.make "http://h").requestToUrl { keys := ["ids"], ids := [29, 30], names := [], tags := [] }
        = Except.ok "http://h/api/content/byids/29/30" := by
  refine ⟨?_, ?_, ?_, ?_⟩
  · intro hI hN hT; simp [Client.requestToUrl, requestKind, hI, hN, hT]
  · intro hN hI hT; simp [Client.requestToUrl, requestKind, hI, hN, hT]
  · intro hT hI hN; simp [Client.requestToUrl, requestKind, hI, hN, hT]
  · decide

/-- Witness for C2: the ids branch evaluated at a concrete client and
query. -/
theorem requestToUrl_renders_witness :
    (Client.make "http://h").requestToUrl { keys := ["ids"], ids := [29, 30], names := [], tags := [] }
      = Except.ok ((Client.make "http://h").apiUrl ++ "byids/"
          ++ String.intercalate "/" (([29, 30] : List Int).map toString)) :=
  (requestToUrl_renders (Client.make "http://h")
      { keys := ["ids"], ids := [29, 30], names := [], tags := [] }).1
    (by decide) (by decide) (by decide)

/-- C3: `requestToUrl` fails exactly when the classifier fails, propagating
the classification error unchanged — whenever the classifier succeeds the
builder succeeds, so the `Unknown request kind` default branch is never taken
and the only error a failing build carries is the ambiguity message — and in
`get` the failure is raised synchronously before the transport is invoked: no
URL is ever fetched for an invalid query. -/
theorem requestToUrl_propagates_failure (c : Client) (transport : String → List Chunk) (r : Request) :
    ((∃ k, requestKind r = Except.ok k) → ∃ u, c.requestToUrl r = Except.ok u)
    ∧ (∀ e, c.requestToUrl r = Except.error e ↔ requestKind r = Except.error e)
    ∧ (∀ e, requestKind r = Except.error e → e = ambiguousMessage)
    ∧ (∀ e, requestKind r = Except.error e →
        (c.get transport r).fetched = [] ∧ (c.get transport r).result = Except.error e) := by
  have hc := requestKind_cases r
  refine ⟨?_, ?_, ?_, ?_⟩
  · rcases hc with h | h | h | h <;> simp [Client.requestToUrl, h]
  · intro e; rcases hc with h | h | h | h <;> simp [Client.requestToUrl, h]
  · intro e h; rcases hc with h2 | h2 | h2 | h2 <;> rw [h2] at h <;> simp_all
  · intro e h
    have hurl : c.requestToUrl r = Except.error e := by
      simp [Client.requestToUrl, h]
    simp [Client.get, hurl]

/-- Witness for C3: `get` on the empty query fetches nothing and returns the
classification error. -/
theorem requestToUrl_propagates_failure_witness :
    ((Client.make "http://h").get (fun _ => []) { keys := [], ids := [], names := [], tags := [] }).fetched = []
    ∧ ((Client.make "http://h").get (fun _ => []) { keys := [], ids := [], names := [], tags := [] }).result
        = Except.error ambiguousMessage :=
  (requestToUrl_propagates_failure (Client.make "http://h") (fun _ => [])
      { keys := [], ids := [], names := [], tags := [] }).2.2.2 ambiguousMessage (by decide)

/-- C4: when the single recognized key holds an empty array, `requestToUrl`
succeeds and the path ends directly after the mode segment: the join of the
empty sequence is the empty string, so the result is exactly the api URL
followed by `byids/` (respectively `bynames/`, `bytags/`). -/
theorem requestToUrl_emptyArray (c : Client) (r : Request) :
    (isRequestKind r "ids" = true → isRequestKind r "names" = false → isRequestKind r "tags" = false →
      r.ids = [] → c.requestToUrl r = Except.ok (c.apiUrl ++ "byids/"))
    ∧ (isRequestKind r "names" = true → isRequestKind r "ids" = false → isRequestKind r "tags" = false →
      r.names = [] → c.requestToUrl r = Except.ok (c.apiUrl ++ "bynames/"))
    ∧ (isRequestKind r "tags" = true → isRequestKind r "ids" = false → isRequestKind r "names" = false →
      r.tags = [] → c.requestToUrl r = Except.ok (c.apiUrl ++ "bytags/")) := by
  refine ⟨?_, ?_, ?_⟩ <;> intro h1 h2 h3 h4 <;>
    simp [Client.requestToUrl, requestKind, h1, h2, h3, h4, intercalate_nil, String.append_empty]

/-- Witness for C4: a query with key list `[ids]` and no ids produces a path
ending in `byids/`. -/
theorem requestToUrl_emptyArray_witness :
    (Client.make "http://h").requestToUrl { keys := ["ids"], ids := [], names := [], tags := [] }
      = Except.ok ((Client.make "http://h").apiUrl ++ "byids/") :=
  (requestToUrl_emptyArray (Client.make "http://h")
      { keys := ["ids"], ids := [], names := [], tags := [] }).1
    (by decide) (by decide) (by decide) rfl

/-- C5: enrichment returns the same sequence (the `data` component is the
argument itself, unchanged — in the js source the very array instance is
augmented in place), it is total (defined for every list, the empty one
included), and re-applying enrichment to the enriched sequence is idempotent:
the whole result and each of the three lookup members coincide after one or
two applications. -/
theorem enrich_idempotent (xs : List Chunk) :
    (enrichCollectionWithByMethods xs).data = xs
    ∧ enrichCollectionWithByMethods ((enrichCollectionWithByMethods xs).data)
        = enrichCollectionWithByMethods xs
    ∧ (enrichCollectionWithByMethods ((enrichCollectionWithByMethods xs).data)).byId
        = (enrichCollectionWithByMethods xs).byId
    ∧ (enrichCollectionWithByMethods ((enrichCollectionWithByMethods xs).data)).byName
        = (enrichCollectionWithByMethods xs).byName
    ∧ (enrichCollectionWithByMethods ((enrichCollectionWithByMethods xs).data)).byTag
        = (enrichCollectionWithByMethods xs).byTag :=
  ⟨rfl, rfl, rfl, rfl, rfl⟩

/-- C6: `byId` returns the first chunk in sequence order whose id equals the
argument (first match wins on duplicates) and `none` exactly when no chunk
matches; `byName` behaves the same over the name field; on the four-chunk
example collection, id 8 finds the chunk named `index-content`, id 99 finds
nothing, and name `index-heading` finds the chunk with id 6. -/
theorem byId_byName_first_match (data : List Chunk) (v : JSValue) :
    (∀ ch, (enrichCollectionWithByMethods data).byId v = some ch →
      ch.id = v ∧ ∃ pre post, data = pre ++ ch :: post ∧ ∀ ch2 ∈ pre, ch2.id ≠ v)
    ∧ ((enrichCollectionWithByMethods data).byId v = none ↔ ∀ ch ∈ data, ch.id ≠ v)
    ∧ (∀ ch, (enrichCollectionWithByMethods data).byName v = some ch →
      ch.name = v ∧ ∃ pre post, data = pre ++ ch :: post ∧ ∀ ch2 ∈ pre, ch2.name ≠ v)
    ∧ ((enrichCollectionWithByMethods data).byName v = none ↔ ∀ ch ∈ data, ch.name ≠ v)
    ∧ (enrichCollectionWithByMethods exampleChunks).byId (JSValue.num 8) = some chunk8
    ∧ chunk8.name = JSValue.str "index-content"
    ∧ (enrichCollectionWithByMethods exampleChunks).byId (JSValue.num 99) = none
    ∧ (enrichCollectionWithByMethods exampleChunks).byName (JSValue.str "index-heading") = some chunk6
    ∧ chunk6.id = JSValue.num 6 := by
  refine ⟨?_, ?_, ?_, ?_, by decide, by decide, by decide, by decide, by decide⟩
  · intro ch h
    simp only [enrichCollectionWithByMethods] at h
    rw [List.find?_eq_some] at h
    obtain ⟨hp, pre, post, heq, hpre⟩ := h
    refine ⟨by simpa using hp, pre, post, heq, ?_⟩
    intro ch2 hch2
    simpa using hpre ch2 hch2
  · simp [enrichCollectionWithByMethods, List.find?_eq_none]
  · intro ch h
    simp only [enrichCollectionWithByMethods] at h
    rw [List.find?_eq_some] at h
    obtain ⟨hp, pre, post, heq, hpre⟩ := h
    refine ⟨by simpa using hp, pre, post, heq, ?_⟩
    intro ch2 hch2
    simpa using hpre ch2 hch2
  · simp [enrichCollectionWithByMethods, List.find?_eq_none]

/-- Witness for C6: on the example collection, id 8 is found and the found
chunk indeed carries id 8. -/
theorem byId_byName_first_match_witness :
    (enrichCollectionWithByMethods exampleChunks).byId (JSValue.num 8) = some chunk8
    ∧ chunk8.id = JSValue.num 8 := by
  have h := byId_byName_first_match exampleChunks (JSValue.num 8)
  exact ⟨h.2.2.2.2.1, (h.1 chunk8 (by decide)).1⟩

/-- C7: `byTag` always returns a sequence (a sublist of the data, in order)
holding exactly the chunks whose tags contain the argument, and it is empty —
never an absence value — exactly when no chunk matches; `byId` and `byName`,
by contrast, return `none` when nothing matches. -/
theorem byTag_filters (data : List Chunk) (tag : JSValue) :
    List.Sublist ((enrichCollectionWithByMethods data).byTag tag) data
    ∧ (∀ ch, ch ∈ (enrichCollectionWithByMethods data).byTag tag ↔ ch ∈ data ∧ tag ∈ ch.tags)
    ∧ ((enrichCollectionWithByMethods data).byTag tag = [] ↔ ∀ ch ∈ data, tag ∉ ch.tags)
    ∧ (∀ v, (∀ ch ∈ data, ch.id ≠ v) → (enrichCollectionWithByMethods data).byId v = none)
    ∧ (∀ v, (∀ ch ∈ data, ch.name ≠ v) → (enrichCollectionWithByMethods data).byName v = none) := by
  refine ⟨?_, ?_, ?_, ?_, ?_⟩
  · exact List.filter_sublist data
  · intro ch
    simp [enrichCollectionWithByMethods, List.mem_filter, List.any_eq_true]
  · simp [enrichCollectionWithByMethods, List.filter_eq_nil_iff]
  · intro v h
    simp [enrichCollectionWithByMethods, List.find?_eq_none]
    exact h
  · intro v h
    simp [enrichCollectionWithByMethods, List.find?_eq_none]
    exact h

/-- Witness for C7: no chunk of the example collection has id 99, so the id
lookup returns the absence value. -/
theorem byTag_filters_witness :
    (enrichCollectionWithByMethods exampleChunks).byId (JSValue.num 99) = none := by
  have h := byTag_filters exampleChunks (JSValue.str "index-page")
  exact h.2.2.2.1 (JSValue.num 99) (by decide)

/-- C8: enrichment neither copies nor reorders the sequence and mutates no
chunk field — the `data` component is the argument itself — and in the
reference model, where the array is a mutable cell read through a store, the
lookup members are views computed on demand: each lookup call reads the
contents the store holds at call time, which is exactly the enrichment of the
current contents, not a snapshot from enrichment time (`enrichRef` never
consults a store). -/
theorem enrich_frame_view (xs : List Chunk) (a : Nat) (store : Store) (v : JSValue) :
    (enrichCollectionWithByMethods xs).data = xs
    ∧ (enrichRef a).byId store v = (enrichCollectionWithByMethods (store a)).byId v
    ∧ (enrichRef a).byName store v = (enrichCollectionWithByMethods (store a)).byName v
    ∧ (enrichRef a).byTag store v = (enrichCollectionWithByMethods (store a)).byTag v :=
  ⟨rfl, rfl, rfl, rfl⟩

/-- C9 counterexample: the claim says a slash is appended only when the
constructor argument does not already end with a forward slash, but for the
one-character input that is just a slash — which does end with a slash — the
regexp `.+\/$` fails for lack of a preceding character, so the constructor
appends another slash and `serverUrl` becomes a double slash instead of the
input itself. -/
theorem clientMake_root_url_counterexample :
    ("/" : String).data.getLast? = some '/'
    ∧ (Client.make "/").serverUrl = "//"
    ∧ ¬ (Client.make "/").serverUrl = "/" := by decide

/-- C9 amended: the constructor keeps the url exactly when the regexp
`.+\/$` accepts it (a trailing slash preceded by at least one
non-line-terminator character) and appends one slash otherwise; in every case
`serverUrl` ends with a slash, `apiUrl` is `serverUrl` followed by
`api/content/`, and every URL built for a classified query has the wire
format of `serverUrl` followed by `api/content/` followed by the mode segment
and the slash-joined elements. -/
theorem clientMake_normalizes (url : String) (r : Request) :
    (endsWithForwardSlash url = true → (Client.make url).serverUrl = url)
    ∧ (endsWithForwardSlash url = false → (Client.make url).serverUrl = url ++ "/")
    ∧ (Client.make url).serverUrl.data.getLast? = some '/'
    ∧ (Client.make url).apiUrl = (Client.make url).serverUrl ++ "api/content/"
    ∧ (isRequestKind r "ids" = true → isRequestKind r "names" = false → isRequestKind r "tags" = false →
        (Client.make url).requestToUrl r
          = Except.ok ((Client.make url).serverUrl ++ "api/content/" ++ "byids/"
              ++ String.intercalate "/" (r.ids.map toString)))
    ∧ (isRequestKind r "names" = true → isRequestKind r "ids" = false → isRequestKind r "tags" = false →
        (Client.make url).requestToUrl r
          = Except.ok ((Client.make url).serverUrl ++ "api/content/" ++ "bynames/"
              ++ String.intercalate "/" r.names))
    ∧ (isRequestKind r "tags" = true → isRequestKind r "ids" = false → isRequestKind r "names" = false →
        (Client.make url).requestToUrl r
          = Except.ok ((Client.make url).serverUrl ++ "api/content/" ++ "bytags/"
              ++ String.intercalate "/" r.tags)) := by
  refine ⟨?_, ?_, ?_, rfl, ?_, ?_, ?_⟩
  · intro h; simp [Client.make, h]
  · intro h; simp [Client.make, h]
  · by_cases h : endsWithForwardSlash url = true
    · have hs : (Client.make url).serverUrl = url := by simp [Client.make, h]
      rw [hs]
      rcases hrev : url.data.reverse with _ | ⟨c0, rest⟩
      · simp [endsWithForwardSlash, hrev] at h
      · rcases rest with _ | ⟨c1, rest2⟩
        · simp [endsWithForwardSlash, hrev] at h
        · simp only [endsWithForwardSlash, hrev, Bool.and_eq_true, beq_iff_eq] at h
          rw [List.getLast?_eq_head?_reverse, hrev]
          simp [h.1]
    · have hf : endsWithForwardSlash url = false := by simpa using h
      have hs : (Client.make url).serverUrl = url ++ "/" := by simp [Client.make, hf]
      rw [hs, String.data_append]
      show (url.data ++ ['/']).getLast? = some '/'
      exact List.getLast?_concat url.data
  · intro h1 h2 h3; simp [Client.requestToUrl, requestKind, h1, h2, h3, Client.make]
  · intro h1 h2 h3; simp [Client.requestToUrl, requestKind, h2, h1, h3, Client.make]
  · intro h1 h2 h3; simp [Client.requestToUrl, requestKind, h2, h3, h1, Client.make]

/-- Witness for C9 amended: a url that already ends in a slash after a
normal character is kept, and a concrete ids query against a slash-less url
renders in the wire format. -/
theorem clientMake_normalizes_witness :
    (Client.make "http://h/").serverUrl = "http://h/"
    ∧ (Client.make "http://h").requestToUrl { keys := ["ids"], ids := [29, 30], names := [], tags := [] }
        = Except.ok ((Client.make "http://h").serverUrl ++ "api/content/" ++ "byids/"
            ++ String.intercalate "/" (([29, 30] : List Int).map toString)) := by
  constructor
  · exact (clientMake_normalizes "http://h/" { keys := [], ids := [], names := [], tags := [] }).1 (by decide)
  · have h := clientMake_normalizes "http://h" { keys := ["ids"], ids := [29, 30], names := [], tags := [] }
    exact h.2.2.2.2.1 (by decide) (by decide) (by decide)

/-- C10: the lookups compare with strict equality and perform no type
coercion: a found chunk always carries a field strictly equal to the
argument, and concretely on the example collection the string `8` finds
nothing even though the chunk with numeric id 8 is present and loosely equal
to it, a differently-cased name finds nothing, and a differently-cased tag
matches no chunk. -/
theorem lookups_strict_no_coercion (data : List Chunk) (v : JSValue) :
    (∀ ch, (enrichCollectionWithByMethods data).byId v = some ch → ch.id = v)
    ∧ (∀ ch, (enrichCollectionWithByMethods data).byName v = some ch → ch.name = v)
    ∧ (∀ ch, ch ∈ (enrichCollectionWithByMethods data).byTag v → v ∈ ch.tags)
    ∧ (enrichCollectionWithByMethods exampleChunks).byId (JSValue.str "8") = none
    ∧ chunk8 ∈ exampleChunks
    ∧ looseEq chunk8.id (JSValue.str "8") = true
    ∧ (enrichCollectionWithByMethods exampleChunks).byName (JSValue.str "Index-heading") = none
    ∧ (enrichCollectionWithByMethods exampleChunks).byTag (JSValue.str "INDEX-PAGE") = [] := by
  refine ⟨?_, ?_, ?_, by decide, by decide, by decide, by decide, by decide⟩
  · intro ch h
    simp only [enrichCollectionWithByMethods] at h
    simpa using List.find?_some h
  · intro ch h
    simp only [enrichCollectionWithByMethods] at h
    simpa using List.find?_some h
  · intro ch h
    simp [enrichCollectionWithByMethods, List.mem_filter, List.any_eq_true] at h
    exact h.2

/-- Witness for C10: the chunk found under the name `index-content` carries
exactly that name. -/
theorem lookups_strict_no_coercion_witness :
    chunk8.name = JSValue.str "index-content" := by
  have h := lookups_strict_no_coercion exampleChunks (JSValue.str "index-content")
  exact h.2.1 chunk8 (by decide)

end Blackstar
